import Mathlib

/-!
Verification development for the job-scraper repository (src/job_scraper.py).

The Python source is shallowly embedded: titles, URLs and other strings are
modelled as lists of characters, Python substring tests become an explicit
occurrence check, the one regular expression used by the classifier
(a word-boundary search for the two-letter abbreviation) is modelled by a
direct scan, and the md5-based fingerprint is embedded as a full
implementation of the MD5 digest over byte lists with Nat arithmetic
reduced modulo 2^32.
-/

/-- Convert a string literal to the character-list representation used
throughout this development. -/
def chars (s : String) : List Char := s.toList

/-- Models Python str.lower on the character-list representation. -/
def toLowerList (s : List Char) : List Char := s.map Char.toLower

/-- Occurrence check: containsPattern p s is true when p occurs
contiguously inside s.  Models the Python expression p in s. -/
def containsPattern (p : List Char) : List Char → Bool
  | [] => p.isEmpty
  | c :: rest => p.isPrefixOf (c :: rest) || containsPattern p rest

/-- Word characters for the word-boundary rule, as in the regular
expression class backslash-w restricted to ASCII: letters, digits and
underscore. -/
def isWordChar (c : Char) : Bool := c.isAlphanum || c == '_'

/-- True when the character list starts with the letters p, m followed by a
word boundary (end of string or a non-word character). -/
def pmWordAt (cs : List Char) : Bool :=
  match cs with
  | 'p' :: 'm' :: rest =>
    match rest with
    | [] => true
    | c :: _ => !(isWordChar c)
  | _ => false

/-- Scan for an occurrence of pm delimited by word boundaries.  The Bool
argument records whether the previous character was a word character
(no previous character counts as a boundary). -/
def hasPmWordAux : Bool → List Char → Bool
  | _, [] => false
  | prevWord, c :: rest =>
    (!prevWord && pmWordAt (c :: rest)) || hasPmWordAux (isWordChar c) rest

/-- Models re.search of a word-bounded pm over the lower-cased title
(src/job_scraper.py lines 91-92). -/
def hasPmWordMatch (cs : List Char) : Bool := hasPmWordAux false cs

/-- URL patterns that disqualify a link from being a job listing
(src/job_scraper.py lines 50-56). -/
def excluded_url_patterns : List (List Char) :=
  [chars "/product-managers/", chars "/about-product", chars "/what-is-product",
   chars "/product-management-guide", chars "/blog/", chars "/resources/",
   chars "/tools/", chars "/templates/", chars "/product-development/",
   chars "/product/", chars "/customers/", chars "/features/", chars "/stories/",
   chars "/case-studies/", chars "/solutions/", chars "/pricing/",
   chars "forbes.com", chars "techcrunch.com", chars "medium.com",
   chars "/company/", chars "/about/", chars "/contact/", chars "/support/",
   chars ".pdf", chars ".jpg", chars ".png", chars ".gif"]

/-- URL patterns that mark a URL as a job listing
(src/job_scraper.py lines 63-67). -/
def job_url_patterns : List (List Char) :=
  [chars "/jobs/", chars "/careers/", chars "/job/", chars "/career/",
   chars "/positions/", chars "/listing/", chars "/opening/", chars "/vacancy/",
   chars "/role/", chars "greenhouse.io", chars "lever.co", chars "workday",
   chars "ashbyhq.com"]

/-- Title fragments whose presence marks a Product Management title
(src/job_scraper.py lines 76-83; the source list repeats
product management, kept here verbatim). -/
def pm_patterns : List (List Char) :=
  [chars "product manager", chars "product management", chars "pm,",
   chars "- pm", chars "(pm)", chars "senior pm", chars "principal pm",
   chars "staff pm", chars "group pm", chars "director of product",
   chars "director, product", chars "director product", chars "head of product",
   chars "vp product", chars "vp of product", chars "product lead",
   chars "product owner", chars "associate pm", chars "junior pm",
   chars "lead pm", chars "product management", chars "pm -", chars "pm lead",
   chars "pm director"]

/-- Role markers that exclude a title from being a Product Management role
(src/job_scraper.py lines 101-109). -/
def exclude_patterns : List (List Char) :=
  [chars "engineer", chars "engineering manager", chars "frontend",
   chars "backend", chars "developer", chars "designer", chars "design",
   chars "marketing manager", chars "sales", chars "customer success",
   chars "support", chars "data analyst", chars "intern", chars "qa",
   chars "test", chars "devops", chars "data scientist", chars "recruiter",
   chars "account executive", chars "content writer", chars "researcher",
   chars "research scientist", chars "technical writer",
   chars "program manager", chars "project manager",
   chars "operations manager", chars "business development",
   chars "partnerships manager", chars "growth marketing",
   chars "strategist", chars "evangelist"]

/-- The classifier BaseParser.is_product_management_job
(src/job_scraper.py lines 47-119): URL exclusion gate, URL inclusion gate
(bypassed when the URL is empty), title gate (substring patterns or a
word-bounded pm), then the exclusion loop with the inline exception that
lets a title containing product marketing manager survive the pattern
marketing (the returned value does not depend on iteration order, so the
loop is rendered as an any over the exclusion list). -/
def is_product_management_job (title url description : List Char) : Bool :=
  if excluded_url_patterns.any (fun p => containsPattern p (toLowerList url)) then false
  else if !url.isEmpty && !(job_url_patterns.any (fun p => containsPattern p (toLowerList url))) then false
  else if !(pm_patterns.any (fun p => containsPattern p (toLowerList title))
            || hasPmWordMatch (toLowerList title)) then false
  else if exclude_patterns.any (fun p =>
      containsPattern p (toLowerList title)
      && !(p == chars "marketing"
           && containsPattern (chars "product marketing manager") (toLowerList title))) then false
  else true

/-! MD5, embedded for BaseParser.create_job_hash (src/job_scraper.py
lines 121-124), which fingerprints a job as the first 12 characters of the
hex digest of the md5 of the concatenated company, title and location.
Machine words are Nats reduced modulo 2^32. -/

/-- 2^32, the word modulus of MD5. -/
def M32 : Nat := 4294967296

/-- Left rotation of a 32-bit word. -/
def rotl32 (x s : Nat) : Nat := ((x <<< s) % M32) ||| (x >>> (32 - s))

/-- The 64 MD5 round constants (floor of 2^32 times the absolute sine
values, as in RFC 1321). -/
def md5KTable : List Nat :=
  [0xd76aa478, 0xe8c7b756, 0x242070db, 0xc1bdceee,
   0xf57c0faf, 0x4787c62a, 0xa8304613, 0xfd469501,
   0x698098d8, 0x8b44f7af, 0xffff5bb1, 0x895cd7be,
   0x6b901122, 0xfd987193, 0xa679438e, 0x49b40821,
   0xf61e2562, 0xc040b340, 0x265e5a51, 0xe9b6c7aa,
   0xd62f105d, 0x02441453, 0xd8a1e681, 0xe7d3fbc8,
   0x21e1cde6, 0xc33707d6, 0xf4d50d87, 0x455a14ed,
   0xa9e3e905, 0xfcefa3f8, 0x676f02d9, 0x8d2a4c8a,
   0xfffa3942, 0x8771f681, 0x6d9d6122, 0xfde5380c,
   0xa4beea44, 0x4bdecfa9, 0xf6bb4b60, 0xbebfbc70,
   0x289b7ec6, 0xeaa127fa, 0xd4ef3085, 0x04881d05,
   0xd9d4d039, 0xe6db99e5, 0x1fa27cf8, 0xc4ac5665,
   0xf4292244, 0x432aff97, 0xab9423a7, 0xfc93a039,
   0x655b59c3, 0x8f0ccc92, 0xffeff47d, 0x85845dd1,
   0x6fa87e4f, 0xfe2ce6e0, 0xa3014314, 0x4e0811a1,
   0xf7537e82, 0xbd3af235, 0x2ad7d2bb, 0xeb86d391]

/-- The 64 MD5 per-round left-rotation amounts. -/
def md5STable : List Nat :=
  [7, 12, 17, 22, 7, 12, 17, 22, 7, 12, 17, 22, 7, 12, 17, 22,
   5, 9, 14, 20, 5, 9, 14, 20, 5, 9, 14, 20, 5, 9, 14, 20,
   4, 11, 16, 23, 4, 11, 16, 23, 4, 11, 16, 23, 4, 11, 16, 23,
   6, 10, 15, 21, 6, 10, 15, 21, 6, 10, 15, 21, 6, 10, 15, 21]

/-- Round constant lookup. -/
def md5K (i : Nat) : Nat := md5KTable.getD i 0

/-- Rotation amount lookup. -/
def md5S (i : Nat) : Nat := md5STable.getD i 0

/-- The MD5 nonlinear mixing function for round i (complement of a 32-bit
word is xor with the all-ones word). -/
def md5F (i b c d : Nat) : Nat :=
  if i < 16 then (b &&& c) ||| ((b ^^^ 0xffffffff) &&& d)
  else if i < 32 then (d &&& b) ||| ((d ^^^ 0xffffffff) &&& c)
  else if i < 48 then b ^^^ c ^^^ d
  else c ^^^ (b ||| (d ^^^ 0xffffffff))

/-- The MD5 message-word index schedule for round i. -/
def md5g (i : Nat) : Nat :=
  if i < 16 then i
  else if i < 32 then (5 * i + 1) % 16
  else if i < 48 then (3 * i + 5) % 16
  else (7 * i) % 16

/-- Little-endian 32-bit word number j of a 64-byte block. -/
def leWord (block : List Nat) (j : Nat) : Nat :=
  block.getD (4 * j) 0 + 256 * block.getD (4 * j + 1) 0
    + 65536 * block.getD (4 * j + 2) 0 + 16777216 * block.getD (4 * j + 3) 0

/-- One MD5 round applied to the running state (a, b, c, d). -/
def md5Step (M : Nat → Nat) (i : Nat) (st : Nat × Nat × Nat × Nat) :
    Nat × Nat × Nat × Nat :=
  let a := st.1
  let b := st.2.1
  let c := st.2.2.1
  let d := st.2.2.2
  let f := (md5F i b c d + a + md5K i + M (md5g i)) % M32
  (d, (b + rotl32 f (md5S i)) % M32, b, c)

/-- Process one 64-byte block: 64 rounds, then add the result into the
incoming state modulo 2^32. -/
def md5ProcessBlock (state : Nat × Nat × Nat × Nat) (block : List Nat) :
    Nat × Nat × Nat × Nat :=
  let r := (List.range 64).foldl (fun st i => md5Step (leWord block) i st) state
  ((state.1 + r.1) % M32, (state.2.1 + r.2.1) % M32,
   (state.2.2.1 + r.2.2.1) % M32, (state.2.2.2 + r.2.2.2) % M32)

/-- The eight little-endian bytes of 8 times the message length (the
message bit length), for MD5 padding. -/
def md5LenBytes (len : Nat) : List Nat :=
  let b := 8 * len
  [b % 256, b / 256 % 256, b / 65536 % 256, b / 16777216 % 256,
   b / 4294967296 % 256, b / 1099511627776 % 256,
   b / 281474976710656 % 256, b / 72057594037927936 % 256]

/-- MD5 padding: append the byte 128, zero bytes up to 56 modulo 64, then
the 8-byte little-endian bit length. -/
def md5Pad (msg : List Nat) : List Nat :=
  msg ++ [128] ++ List.replicate ((120 - ((msg.length + 1) % 64)) % 64) 0
    ++ md5LenBytes msg.length

/-- The MD5 initial state. -/
def md5Init : Nat × Nat × Nat × Nat :=
  (0x67452301, 0xefcdab89, 0x98badcfe, 0x10325476)

/-- The MD5 compression over all 64-byte blocks of the padded message. -/
def md5Core (msg : List Nat) : Nat × Nat × Nat × Nat :=
  let padded := md5Pad msg
  (List.range (padded.length / 64)).foldl
    (fun st i => md5ProcessBlock st ((padded.drop (64 * i)).take 64)) md5Init

/-- The four little-endian bytes of a 32-bit word. -/
def wordBytesLE (w : Nat) : List Nat :=
  [w % 256, w / 256 % 256, w / 65536 % 256, w / 16777216 % 256]

/-- The 16-byte MD5 digest of a byte list. -/
def md5Bytes (msg : List Nat) : List Nat :=
  let s := md5Core msg
  wordBytesLE s.1 ++ wordBytesLE s.2.1 ++ wordBytesLE s.2.2.1 ++ wordBytesLE s.2.2.2

/-- Lower-case hex digit for a value below 16. -/
def hexDigitChar (n : Nat) : Char :=
  if n < 10 then Char.ofNat (48 + n) else Char.ofNat (87 + n)

/-- The two hex characters of one byte. -/
def byteHex (b : Nat) : List Char := [hexDigitChar (b / 16), hexDigitChar (b % 16)]

/-- Concatenation of the images of f, used for hex digests and UTF-8
encoding. -/
def joinMap (f : α → List β) : List α → List β
  | [] => []
  | a :: rest => f a ++ joinMap f rest

/-- The 32-character hex digest of the MD5 of a byte list, as produced by
hexdigest in the source. -/
def md5HexDigest (msg : List Nat) : List Char := joinMap byteHex (md5Bytes msg)

/-- UTF-8 encoding of one character. -/
def charUtf8 (c : Char) : List Nat :=
  let n := c.toNat
  if n < 128 then [n]
  else if n < 2048 then [192 + n / 64, 128 + n % 64]
  else if n < 65536 then [224 + n / 4096, 128 + n / 64 % 64, 128 + n % 64]
  else [240 + n / 262144, 128 + n / 4096 % 64, 128 + n / 64 % 64, 128 + n % 64]

/-- UTF-8 encoding of a character list, modelling str.encode. -/
def utf8Bytes (s : List Char) : List Nat := joinMap charUtf8 s

/-- The concatenation fed to the hash: the f-string of company, title and
location in create_job_hash (src/job_scraper.py line 123). -/
def unique_string (company title location : List Char) : List Char :=
  company ++ title ++ location

/-- BaseParser.create_job_hash (src/job_scraper.py lines 121-124): first
12 characters of the MD5 hex digest of the encoded concatenation. -/
def create_job_hash (company title location : List Char) : List Char :=
  (md5HexDigest (utf8Bytes (unique_string company title location))).take 12

/-! Data model: a Posting is the job dictionary built by the parsers
(company, title, location, url, date_posted, date_found, status, hash),
and the durable store maps fingerprint keys to Postings in insertion
order, modelling the Python dict built by load_existing_jobs. -/

/-- One job record, as assembled by the parsers
(src/job_scraper.py lines 252-261, 343-352, 576-585). -/
structure Posting where
  company : List Char
  title : List Char
  location : List Char
  url : List Char
  date_posted : List Char
  date_found : List Char
  status : List Char
  hash : List Char
deriving DecidableEq

instance : Inhabited Posting := ⟨⟨[], [], [], [], [], [], [], []⟩⟩

/-- The durable store: an insertion-ordered map from fingerprint key to
Posting, modelling the dict returned by load_existing_jobs
(src/job_scraper.py lines 661-669). -/
abbrev JobStore := List (List Char × Posting)

/-- Key membership in the store, modelling the Python expression
key in dict. -/
def containsKey (store : JobStore) (k : List Char) : Bool :=
  store.any (fun e => e.1 == k)

/-- Lookup in the store, modelling dict indexing. -/
def store_get : JobStore → List Char → Option Posting
  | [], _ => none
  | e :: rest, k => if e.1 == k then some e.2 else store_get rest k

/-- Assignment dict key = value on an insertion-ordered map: replace the
entry with the same key in place, or append a fresh entry at the end. -/
def store_set : JobStore → List Char → Posting → JobStore
  | [], k, v => [(k, v)]
  | e :: rest, k, v => if e.1 == k then (k, v) :: rest else e :: store_set rest k v

/-! The Reconciler: the merge portion of JobScraper.run_scraper
(src/job_scraper.py lines 722-766).  Per company the freshly extracted
list is filtered against the store loaded at the start of the run, the
surviving postings are concatenated into new_jobs, and the merged store is
the existing store with each member of new_jobs assigned at its hash
key. -/

/-- The concatenation of the per-company lists truly_new
(src/job_scraper.py lines 728-735): extracted postings whose hash is
absent from the existing store, in extraction order. -/
def truly_new_jobs (existing : JobStore) (extracted : List (List Posting)) : List Posting :=
  (extracted.map (fun jobs => jobs.filter (fun job => !(containsKey existing job.hash)))).flatten

/-- The merged dict all_jobs_dict (src/job_scraper.py lines 746-748):
the existing store with every truly new posting assigned at its hash. -/
def merged_store (existing : JobStore) (extracted : List (List Posting)) : JobStore :=
  (truly_new_jobs existing extracted).foldl (fun acc job => store_set acc job.hash job) existing

/-- The reported count of new postings, len of new_jobs
(src/job_scraper.py lines 759, 764-766). -/
def new_jobs_count (existing : JobStore) (extracted : List (List Posting)) : Nat :=
  (truly_new_jobs existing extracted).length

/-! The Greenhouse extractor loop (src/job_scraper.py lines 283-364).
The BeautifulSoup DOM element is external; it is modelled by the data the
loop reads from it (title text, optional location text, optional resolved
absolute link), and the per-element try/except by an Except value, error
standing for an element whose decomposition raises.  The whole fetch is
likewise an Except, error standing for a transport or top-level parse
failure. -/

/-- The data extracted from one Greenhouse job element. -/
structure GHElement where
  title : List Char
  location : Option (List Char)
  href : Option (List Char)
deriving DecidableEq

/-- The job dictionary built for one successfully decomposed Greenhouse
element (src/job_scraper.py lines 330-352): location defaults to Unknown,
the URL falls back to the board URL when the element has no link, and the
hash is the fingerprint of company, title and location. -/
def gh_job_from_element (company page_url date_found : List Char) (el : GHElement) : Posting :=
  let location := el.location.getD (chars "Unknown")
  let job_url := (el.href.getD [])
  ⟨company, el.title, location, if job_url.isEmpty then page_url else job_url,
   chars "Unknown", date_found, chars "active",
   create_job_hash company el.title location⟩

/-- The per-element loop of GreenhouseParser.parse_jobs
(src/job_scraper.py lines 321-359): an element that fails to decompose is
skipped and the loop continues; a decomposed element is kept only when the
classifier accepts its title (called with default empty url and
description, line 327). -/
def greenhouse_parse_elements (company page_url date_found : List Char) :
    List (Except Unit GHElement) → List Posting
  | [] => []
  | Except.error _ :: rest => greenhouse_parse_elements company page_url date_found rest
  | Except.ok el :: rest =>
    if !(is_product_management_job el.title [] []) then
      greenhouse_parse_elements company page_url date_found rest
    else
      gh_job_from_element company page_url date_found el
        :: greenhouse_parse_elements company page_url date_found rest

/-- GreenhouseParser.parse_jobs (src/job_scraper.py lines 283-364): a
failed fetch (caught by the outer try/except, lines 361-364) yields the
empty list; a fetched page yields the element loop result. -/
def greenhouse_parse_jobs (company url date_found : List Char)
    (fetched : Except Unit (List (Except Unit GHElement))) : List Posting :=
  match fetched with
  | Except.error _ => []
  | Except.ok elements => greenhouse_parse_elements company url date_found elements

/-! The Ashby extractor filtering step (src/job_scraper.py lines 203-265).
The GraphQL response supplies job postings (id, title, teamId, ...) and
teams (id, name).  The loop keeps a posting exactly when the title-based
classifier accepts its title with empty url and description (line 230);
the team lookup is computed but consulted only for log output. -/

/-- One job posting from the Ashby API response (the fields the filter
reads). -/
structure AshbyJob where
  id : List Char
  title : List Char
  teamId : List Char
deriving DecidableEq

/-- One team from the Ashby API response. -/
structure AshbyTeam where
  id : List Char
  name : List Char
deriving DecidableEq

/-- The dict comprehension team_lookup (src/job_scraper.py line 213) with
the getD default of the empty string (line 227): a later entry with the
same id overwrites an earlier one, hence the reversed search. -/
def team_lookup (teams : List AshbyTeam) (tid : List Char) : List Char :=
  match teams.reverse.find? (fun t => t.id == tid) with
  | some t => t.name
  | none => []

/-- The hard-coded Product Management team ids, pm_team_ids for openai
(src/job_scraper.py lines 218-221); defined in the source but never
consulted by the filter. -/
def pm_team_ids_openai : List (List Char) :=
  [chars "db3c67d7-3646-4555-925b-40f30ab09f28"]

/-- The filtering decision of AshbyParser.parse_jobs
(src/job_scraper.py lines 224-233): a posting is kept iff the title-based
classifier accepts its title. -/
def ashby_selected_postings (postings : List AshbyJob) : List AshbyJob :=
  postings.filter (fun job => is_product_management_job job.title [] [])

/-! Run statistics: JobScraper.update_stats (src/job_scraper.py lines
690-716) rewrites the totals, the timestamp and the company snapshot, then
appends a run record and truncates the history to its last 30 entries. -/

/-- One run-history record (src/job_scraper.py lines 702-706). -/
structure RunInfo where
  date : List Char
  new_jobs : Nat
  companies_scraped : Nat
deriving DecidableEq

/-- The persisted statistics record (src/job_scraper.py lines 652-659). -/
structure RunStats where
  total_jobs_found : Nat
  last_run : List Char
  companies_scraped : List (List Char × List Char)
  run_history : List RunInfo
deriving DecidableEq

/-- The external inputs of one statistics update: the current timestamp,
the total count read back from the store, the configured company map and
the new-postings count of the run. -/
structure RunInput where
  now : List Char
  total_known : Nat
  companies : List (List Char × List Char)
  new_count : Nat
deriving DecidableEq

/-- The last n elements of a list, modelling the Python slice with
negative start index (all elements when fewer than n). -/
def lastN (n : Nat) (l : List α) : List α := l.drop (l.length - n)

/-- The run record appended for one run (src/job_scraper.py lines
702-706). -/
def run_info_of (r : RunInput) : RunInfo := ⟨r.now, r.new_count, r.companies.length⟩

/-- JobScraper.update_stats (src/job_scraper.py lines 690-716): overwrite
totals, timestamp and company snapshot, append the run record, keep only
the last 30 history entries. -/
def update_stats (stats : RunStats) (r : RunInput) : RunStats :=
  ⟨r.total_known, r.now, r.companies,
   lastN 30 (stats.run_history ++ [run_info_of r])⟩

/-- The statistics record created by initialize_files
(src/job_scraper.py lines 652-659). -/
def initial_stats : RunStats := ⟨0, [], [], []⟩

/-! Concrete sample data used by the per-claim counterexamples and
witnesses. -/

/-- Fingerprint key of the stored sample posting for the merge claims. -/
def hKeyC1 : List Char := chars "a1b2c3d4e5f6"

/-- A stored posting observed on an earlier run. -/
def postStoredC1 : Posting :=
  ⟨chars "Acme", chars "Senior Product Manager", chars "SF",
   chars "https://acme.example/jobs/1", chars "Unknown", chars "2024-01-01",
   chars "active", hKeyC1⟩

/-- The same posting freshly fetched on a later run: identical fingerprint,
new date_found. -/
def postFreshC1 : Posting :=
  ⟨chars "Acme", chars "Senior Product Manager", chars "SF",
   chars "https://acme.example/jobs/1", chars "Unknown", chars "2024-02-02",
   chars "active", hKeyC1⟩

/-- A sample posting that two configured companies both yield, for the
new-count claim. -/
def postDupC10 : Posting :=
  ⟨chars "Acme", chars "Staff PM", chars "NYC",
   chars "https://acme.example/jobs/2", chars "Unknown", chars "2024-03-03",
   chars "active", chars "0123456789ab"⟩

/-- First of two distinct-fingerprint sample postings for the idempotence
claim. -/
def postNew1C6 : Posting :=
  ⟨chars "Acme", chars "Product Manager", chars "SF",
   chars "https://acme.example/jobs/3", chars "Unknown", chars "2024-04-04",
   chars "active", chars "aaaaaaaaaaaa"⟩

/-- Second of two distinct-fingerprint sample postings for the idempotence
claim. -/
def postNew2C6 : Posting :=
  ⟨chars "Acme", chars "Group PM", chars "London",
   chars "https://acme.example/jobs/4", chars "Unknown", chars "2024-04-04",
   chars "active", chars "bbbbbbbbbbbb"⟩

/-- The extracted list for the idempotence claim. -/
def freshListC6 : List Posting := [postNew1C6, postNew2C6]

/-- The Ashby teams list for the department-override claim: the OpenAI
Product Management team. -/
def teamsC4 : List AshbyTeam :=
  [⟨chars "db3c67d7-3646-4555-925b-40f30ab09f28", chars "Product Management"⟩]

/-- An Ashby posting on the Product Management team whose title the
classifier rejects. -/
def jobC4 : AshbyJob :=
  ⟨chars "11111111-2222-3333-4444-555555555555", chars "Software Engineer",
   chars "db3c67d7-3646-4555-925b-40f30ab09f28"⟩

/-- 35 sample run inputs for the retention witness. -/
def runs35 : List RunInput := (List.range 35).map (fun i => ⟨[], 0, [], i⟩)

/-- The number encoded by the first 6 digest bytes (the first 12 hex
characters) of the MD5 of a message, in base 256. -/
def md5First6 (msg : List Nat) : Nat :=
  ((md5Bytes msg).take 6).foldr (fun b acc => b + 256 * acc) 0

/-- Company used in the fingerprint-collision argument. -/
def c5company : List Char := chars "Acme"

/-- Location used in the fingerprint-collision argument. -/
def c5location : List Char := chars "Remote"

/-- The fingerprint of the title consisting of n letters a, as an element
of the finite space of 48-bit values that the 12 retained hex characters
can encode. -/
def collisionProbe (n : Nat) : Fin 281474976710656 :=
  ⟨md5First6 (utf8Bytes (unique_string c5company (List.replicate n 'a') c5location))
     % 281474976710656,
   Nat.mod_lt _ (by norm_num)⟩

/-! Store lemmas shared by the reconciliation claims. -/

/-- Assignment at one key leaves lookups at a different key unchanged. -/
theorem store_get_set_ne (st : JobStore) (k2 k : List Char) (v : Posting)
    (h : k2 ≠ k) :
    store_get (store_set st k2 v) k = store_get st k := by
  have hk : (k2 == k) = false := beq_eq_false_iff_ne.mpr h
  induction st with
  | nil => simp [store_set, store_get, hk]
  | cons e rest ih =>
    simp only [store_set]
    cases he : e.1 == k2 with
    | true =>
      have he2 : e.1 = k2 := eq_of_beq he
      simp [store_get, hk, he2]
    | false =>
      by_cases h1 : (e.1 == k) = true
      · simp [store_get, h1]
      · simp [store_get, h1, ih]

/-- After assignment at a key, the key is present. -/
theorem containsKey_set_self (st : JobStore) (k : List Char) (v : Posting) :
    containsKey (store_set st k v) k = true := by
  induction st with
  | nil => simp [store_set, containsKey]
  | cons e rest ih =>
    simp only [store_set]
    split
    · simp [containsKey]
    · simp only [containsKey, List.any_cons]
      simp only [containsKey] at ih
      rw [ih]
      simp

/-- Assignment never removes a present key. -/
theorem containsKey_set_mono (st : JobStore) (k2 k : List Char) (v : Posting)
    (h : containsKey st k = true) :
    containsKey (store_set st k2 v) k = true := by
  induction st with
  | nil => simp [containsKey] at h
  | cons e rest ih =>
    simp only [store_set]
    split
    · next he =>
      have he2 : e.1 = k2 := eq_of_beq he
      simp only [containsKey, List.any_cons] at h ⊢
      rw [← he2]
      exact h
    · next he =>
      simp only [containsKey, List.any_cons] at h ⊢
      rcases Bool.or_eq_true_iff.mp h with h1 | h1
      · rw [h1]
        simp
      · have h2 := ih (by simpa [containsKey] using h1)
        simp only [containsKey] at h2
        rw [h2]
        simp

/-- Folding assignments over a job list never removes a present key. -/
theorem containsKey_foldl_set_mono (jobs : List Posting) (st : JobStore)
    (k : List Char) (h : containsKey st k = true) :
    containsKey (jobs.foldl (fun acc job => store_set acc job.hash job) st) k = true := by
  induction jobs generalizing st with
  | nil => exact h
  | cons a rest ih => exact ih _ (containsKey_set_mono _ _ _ _ h)

/-- Every job assigned during the fold ends up with its key present. -/
theorem containsKey_foldl_set_of_mem (jobs : List Posting) (st : JobStore)
    (job : Posting) (h : job ∈ jobs) :
    containsKey (jobs.foldl (fun acc j => store_set acc j.hash j) st) job.hash = true := by
  induction jobs generalizing st with
  | nil => cases h
  | cons a rest ih =>
    rcases List.mem_cons.mp h with rfl | hmem
    · exact containsKey_foldl_set_mono rest _ _ (containsKey_set_self st job.hash job)
    · exact ih (store_set st a.hash a) hmem

/-- Folding assignments whose keys all differ from k leaves the lookup at
k unchanged. -/
theorem store_get_foldl_set (jobs : List Posting) (st : JobStore) (k : List Char)
    (h : ∀ j ∈ jobs, j.hash ≠ k) :
    store_get (jobs.foldl (fun acc job => store_set acc job.hash job) st) k = store_get st k := by
  induction jobs generalizing st with
  | nil => rfl
  | cons a rest ih =>
    simp only [List.foldl_cons]
    rw [ih (store_set st a.hash a) (fun j hj => h j (List.mem_cons_of_mem a hj)),
      store_get_set_ne st a.hash k a (h a (List.mem_cons_self a rest))]

/-- Members of the truly-new list have fingerprints absent from the
existing store. -/
theorem containsKey_of_mem_truly_new (existing : JobStore)
    (extracted : List (List Posting)) (job : Posting)
    (h : job ∈ truly_new_jobs existing extracted) :
    containsKey existing job.hash = false := by
  simp only [truly_new_jobs, List.mem_flatten, List.mem_map] at h
  obtain ⟨_, ⟨jobs, hjobs, rfl⟩, hmem⟩ := h
  have h2 := (List.mem_filter.mp hmem).2
  simpa using h2

/-- Filtering each sublist and flattening is flattening then filtering. -/
theorem flatten_map_filter (p : Posting → Bool) (L : List (List Posting)) :
    (L.map (List.filter p)).flatten = L.flatten.filter p := by
  induction L with
  | nil => rfl
  | cons a rest ih =>
    simp only [List.map_cons, List.flatten_cons, List.filter_append, ih]

/-- C1: the claim states that the merged store is the existing store with
every freshly extracted posting written at its fingerprint key, the fresh
posting (with its new date_found) always replacing the stored one when
fingerprints match.  This is false for the code: a fresh posting whose
fingerprint is already present is filtered out before the merge, so the
stored entry survives unchanged. -/
theorem C1_merge_counterexample :
    postFreshC1 ≠ postStoredC1 ∧
    postFreshC1.hash = hKeyC1 ∧
    merged_store [(hKeyC1, postStoredC1)] [[postFreshC1]] = [(hKeyC1, postStoredC1)] ∧
    store_get (merged_store [(hKeyC1, postStoredC1)] [[postFreshC1]]) hKeyC1 ≠ some postFreshC1 := by
  decide

/-- C1 (amended): the merged store is the existing store with each truly
new posting (fingerprint absent from the existing store) written at its
key; at every fingerprint already present the stored entry, not the fresh
one, is what the merged store holds. -/
theorem C1_merge_amended :
    (∀ (existing : JobStore) (extracted : List (List Posting)) (k : List Char),
        containsKey existing k = true →
        store_get (merged_store existing extracted) k = store_get existing k) ∧
    (∀ (existing : JobStore) (extracted : List (List Posting)) (job : Posting),
        job ∈ truly_new_jobs existing extracted →
        containsKey (merged_store existing extracted) job.hash = true) := by
  constructor
  · intro existing extracted k hk
    apply store_get_foldl_set
    intro j hj hjk
    have hfalse := containsKey_of_mem_truly_new existing extracted j hj
    rw [hjk, hk] at hfalse
    cases hfalse
  · intro existing extracted job hj
    exact containsKey_foldl_set_of_mem _ _ _ hj

/-- C1 witness: the amended theorem applied at the concrete one-entry
store and one fresh posting with the same fingerprint. -/
theorem C1_merge_witness :
    containsKey [(hKeyC1, postStoredC1)] hKeyC1 = true ∧
    store_get (merged_store [(hKeyC1, postStoredC1)] [[postFreshC1]]) hKeyC1 = some postStoredC1 :=
  ⟨by decide,
   (C1_merge_amended.1 [(hKeyC1, postStoredC1)] [[postFreshC1]] hKeyC1 (by decide)).trans
     (by decide)⟩

/-- C6: reconciling a list of distinct-fingerprint postings against the
empty store counts all of them as new, and reconciling the same list
against the resulting merged store counts none. -/
theorem C6_reconcile_idempotent (fresh : List Posting)
    (hnodup : (fresh.map Posting.hash).Nodup) :
    new_jobs_count [] [fresh] = fresh.length ∧
    new_jobs_count (merged_store [] [fresh]) [fresh] = 0 := by
  have hbase : truly_new_jobs [] [fresh] = fresh := by
    simp [truly_new_jobs, containsKey]
  constructor
  · simp [new_jobs_count, hbase]
  · simp only [new_jobs_count, List.length_eq_zero]
    simp only [truly_new_jobs, List.map_cons, List.map_nil, List.flatten,
      List.append_nil]
    rw [List.filter_eq_nil_iff]
    intro j hj
    have hkey : containsKey (merged_store [] [fresh]) j.hash = true := by
      simp only [merged_store, hbase]
      exact containsKey_foldl_set_of_mem fresh [] j hj
    simp [hkey]

/-- C6 witness: the theorem applied to two concrete postings with
distinct fingerprints. -/
theorem C6_reconcile_witness :
    (freshListC6.map Posting.hash).Nodup ∧
    new_jobs_count [] [freshListC6] = freshListC6.length ∧
    new_jobs_count (merged_store [] [freshListC6]) [freshListC6] = 0 :=
  ⟨by decide, C6_reconcile_idempotent freshListC6 (by decide)⟩

/-- C10: the reported new count is the number of entries in the freshly
extracted lists whose fingerprint is absent from the store loaded at the
start of the run, each list entry counted separately; in particular two
extracted copies of the same posting are counted twice while only one
entry is added to the merged store. -/
theorem C10_new_count_semantics :
    (∀ (existing : JobStore) (extracted : List (List Posting)),
        new_jobs_count existing extracted =
          (extracted.flatten.filter (fun job => !(containsKey existing job.hash))).length) ∧
    new_jobs_count [] [[postDupC10], [postDupC10]] = 2 ∧
    (merged_store [] [[postDupC10], [postDupC10]]).length = 1 := by
  refine ⟨?_, by decide, by decide⟩
  intro existing extracted
  unfold new_jobs_count truly_new_jobs
  rw [flatten_map_filter]

/-- C2: the spec claims classify of Product Marketing Manager with a
job-listing URL is true by virtue of the carve-out; the code rejects that
title because no title-gate pattern matches it, making the carve-out
unreachable, although the comment at line 114 and the keyword list at
line 34 of src/job_scraper.py document the intent to accept it.  The URL
below passes both URL gates, so the rejection is decided by the title
alone. -/
theorem C2_pmm_classifier_rejects :
    excluded_url_patterns.any
        (fun p => containsPattern p (toLowerList (chars "https://example.com/jobs/123"))) = false ∧
    job_url_patterns.any
        (fun p => containsPattern p (toLowerList (chars "https://example.com/jobs/123"))) = true ∧
    is_product_management_job (chars "Product Marketing Manager")
      (chars "https://example.com/jobs/123") [] = false := by
  decide

/-- C9: the empty title is never classified as a match, whatever the URL
and description. -/
theorem C9_empty_title_never_matches (url description : List Char) :
    is_product_management_job [] url description = false := by
  unfold is_product_management_job
  split
  · rfl
  · split
    · rfl
    · decide

/-- C3: the claim states that every title in which pm occurs only inside
a larger word is rejected.  False: the substring pattern pm-comma matches
inside the word npm followed by a comma, so a title with no word-bounded
pm occurrence is still classified true. -/
theorem C3_word_boundary_counterexample :
    containsPattern (chars "pm") (toLowerList (chars "Npm, Tooling")) = true ∧
    hasPmWordMatch (toLowerList (chars "Npm, Tooling")) = false ∧
    is_product_management_job (chars "Npm, Tooling")
      (chars "https://example.com/careers/42") [] = true := by
  decide

/-- C3 (amended): a title matched by no substring title pattern and with
no word-bounded pm occurrence is always rejected, and Senior PM, Platform
with a job-listing URL is classified true; the word-boundary rule alone
does not reject titles such as Npm, Tooling in which a substring pattern
fires inside a larger word. -/
theorem C3_word_boundary_amended :
    (∀ title url description : List Char,
        pm_patterns.any (fun p => containsPattern p (toLowerList title)) = false →
        hasPmWordMatch (toLowerList title) = false →
        is_product_management_job title url description = false) ∧
    is_product_management_job (chars "Senior PM, Platform")
      (chars "https://example.com/jobs/1") [] = true := by
  constructor
  · intro title url description h1 h2
    unfold is_product_management_job
    split
    · rfl
    · split
      · rfl
      · rw [h1, h2]
        rfl
  · decide

/-- C3 witness: the amended theorem applied to a title in which pm occurs
only inside the word npm and no substring pattern fires. -/
theorem C3_word_boundary_witness :
    pm_patterns.any (fun p => containsPattern p (toLowerList (chars "Npm Tooling"))) = false ∧
    hasPmWordMatch (toLowerList (chars "Npm Tooling")) = false ∧
    is_product_management_job (chars "Npm Tooling") (chars "https://example.com/jobs/9") [] = false :=
  ⟨by decide, by decide,
   C3_word_boundary_amended.1 (chars "Npm Tooling") (chars "https://example.com/jobs/9") []
     (by decide) (by decide)⟩

/-- C4: the claim states that an Ashby posting whose team name denotes
Product Management is included even when the title-based classifier
rejects its title.  False: the filter consults only the title; a posting
on the Product Management team (both by name and by the hard-coded team
id) with title Software Engineer is excluded. -/
theorem C4_ashby_counterexample :
    toLowerList (team_lookup teamsC4 jobC4.teamId) = chars "product management" ∧
    jobC4.teamId ∈ pm_team_ids_openai ∧
    is_product_management_job jobC4.title [] [] = false ∧
    ashby_selected_postings [jobC4] = [] := by
  decide

/-- C4 (amended): an Ashby posting is selected exactly when the
title-based classifier (invoked with empty url and description) accepts
its title; the team lookup is never consulted by the filter. -/
theorem C4_ashby_amended (postings : List AshbyJob) (job : AshbyJob) :
    job ∈ ashby_selected_postings postings ↔
      job ∈ postings ∧ is_product_management_job job.title [] [] = true := by
  simp [ashby_selected_postings, List.mem_filter]

/-- C8: a failed fetch yields the empty list rather than an exception,
and an element that fails to decompose is skipped while its siblings
before and after it are processed normally. -/
theorem C8_extractor_error_handling :
    (∀ company url date_found : List Char,
        greenhouse_parse_jobs company url date_found (Except.error ()) = []) ∧
    (∀ (company url date_found : List Char) (pre post : List (Except Unit GHElement)),
        greenhouse_parse_elements company url date_found (pre ++ Except.error () :: post) =
          greenhouse_parse_elements company url date_found pre
            ++ greenhouse_parse_elements company url date_found post) := by
  constructor
  · intro c u d
    rfl
  · intro c u d pre post
    induction pre with
    | nil => rfl
    | cons e rest ih =>
      cases e with
      | error err => simpa [greenhouse_parse_elements] using ih
      | ok el =>
        cases hcv : is_product_management_job el.title [] [] <;>
          simp [greenhouse_parse_elements, hcv, ih]

/-! Run-history lemmas. -/

/-- Truncation to the last n entries never yields more than n entries. -/
theorem lastN_length_le (n : Nat) (l : List α) : (lastN n l).length ≤ n := by
  simp [lastN]
  omega

/-- Truncating, appending and truncating again is the same as appending
and truncating once. -/
theorem lastN_append_lastN (n : Nat) (x y : List α) :
    lastN n (lastN n x ++ y) = lastN n (x ++ y) := by
  rcases Nat.le_total x.length n with h | h
  · unfold lastN
    rw [Nat.sub_eq_zero_of_le h, List.drop_zero]
  · unfold lastN
    rw [List.drop_append_eq_append_drop, List.drop_append_eq_append_drop, List.drop_drop]
    simp only [List.length_append, List.length_drop]
    congr 2 <;> omega

/-- Folding statistics updates accumulates exactly the truncated history
of all appended run records. -/
theorem foldl_update_stats_history (runs : List RunInput) (stats : RunStats)
    (h : stats.run_history.length ≤ 30) :
    (List.foldl update_stats stats runs).run_history =
      lastN 30 (stats.run_history ++ runs.map run_info_of) := by
  induction runs generalizing stats with
  | nil =>
    simp only [List.foldl_nil, List.map_nil, List.append_nil]
    unfold lastN
    rw [Nat.sub_eq_zero_of_le h, List.drop_zero]
  | cons r rest ih =>
    simp only [List.foldl_cons, List.map_cons]
    rw [ih (update_stats stats r) (lastN_length_le 30 _)]
    have hr : (update_stats stats r).run_history
        = lastN 30 (stats.run_history ++ [run_info_of r]) := rfl
    rw [hr, lastN_append_lastN, List.append_assoc, List.singleton_append]

/-- C7: every statistics update leaves at most 30 history entries, and a
sequence of 35 runs from the initial statistics record retains exactly the
35 run records minus the 5 oldest, in order. -/
theorem C7_run_history_retention (runs : List RunInput) (h : runs.length = 35) :
    (∀ (stats : RunStats) (r : RunInput), ((update_stats stats r).run_history).length ≤ 30) ∧
    (List.foldl update_stats initial_stats runs).run_history = (runs.map run_info_of).drop 5 := by
  constructor
  · intro stats r
    exact lastN_length_le 30 _
  · rw [foldl_update_stats_history runs initial_stats (by norm_num [initial_stats])]
    have h0 : initial_stats.run_history = ([] : List RunInfo) := rfl
    rw [h0, List.nil_append]
    unfold lastN
    rw [List.length_map, h]

/-- C7 witness: the retention theorem applied to 35 concrete runs. -/
theorem C7_run_history_witness :
    runs35.length = 35 ∧
    (List.foldl update_stats initial_stats runs35).run_history = (runs35.map run_info_of).drop 5 :=
  ⟨by decide, (C7_run_history_retention runs35 (by decide)).2⟩

/-! Fingerprint lemmas: the 12 retained hex characters of the digest are
determined by its first six bytes, which encode a 48-bit value; since
titles are unbounded, the fingerprint cannot separate all titles. -/

/-- The digest always has 16 bytes. -/
theorem md5Bytes_length (msg : List Nat) : (md5Bytes msg).length = 16 := by
  simp [md5Bytes, wordBytesLE]

/-- The first six digest bytes, explicitly. -/
theorem md5Bytes_take6 (msg : List Nat) :
    (md5Bytes msg).take 6 =
      [(md5Core msg).1 % 256, (md5Core msg).1 / 256 % 256,
       (md5Core msg).1 / 65536 % 256, (md5Core msg).1 / 16777216 % 256,
       (md5Core msg).2.1 % 256, (md5Core msg).2.1 / 256 % 256] := rfl

/-- The base-256 value of the first six digest bytes is a 48-bit value. -/
theorem md5First6_lt (msg : List Nat) : md5First6 msg < 281474976710656 := by
  rw [md5First6, md5Bytes_take6]
  simp only [List.foldr_cons, List.foldr_nil]
  omega

/-- Equal 48-bit values force equal first-six digest bytes. -/
theorem take6_eq_of_md5First6_eq (x y : List Nat) (h : md5First6 x = md5First6 y) :
    (md5Bytes x).take 6 = (md5Bytes y).take 6 := by
  rw [md5First6, md5First6, md5Bytes_take6, md5Bytes_take6] at h
  simp only [List.foldr_cons, List.foldr_nil] at h
  rw [md5Bytes_take6, md5Bytes_take6]
  simp only [List.cons.injEq, and_true]
  omega

/-- Taking 2k hex characters of a digest only depends on its first k
bytes. -/
theorem take_joinMap_byteHex :
    ∀ (k : Nat) (l1 l2 : List Nat), l1.take k = l2.take k →
      (joinMap byteHex l1).take (2 * k) = (joinMap byteHex l2).take (2 * k)
  | 0, _, _, _ => by simp
  | _ + 1, [], [], _ => rfl
  | _ + 1, [], _ :: _, h => by simp at h
  | _ + 1, _ :: _, [], h => by simp at h
  | k + 1, a :: s, b :: t, h => by
    simp only [List.take_succ_cons, List.cons.injEq] at h
    obtain ⟨rfl, h2⟩ := h
    have ih := take_joinMap_byteHex k s t h2
    show (byteHex a ++ joinMap byteHex s).take (2 * (k + 1))
        = (byteHex a ++ joinMap byteHex t).take (2 * (k + 1))
    have h21 : 2 * (k + 1) = 2 * k + 1 + 1 := by omega
    rw [h21]
    simp only [byteHex, List.cons_append, List.nil_append, List.take_succ_cons]
    rw [ih]

/-- Messages with equal first-six digest bytes have equal 12-character
fingerprints. -/
theorem take12_hex_eq_of_take6 (x y : List Nat)
    (h : (md5Bytes x).take 6 = (md5Bytes y).take 6) :
    (md5HexDigest x).take 12 = (md5HexDigest y).take 12 := by
  have h12 := take_joinMap_byteHex 6 _ _ h
  norm_num at h12
  exact h12

/-- C5: the claim states that changing any one of company, title and
location always changes the fingerprint.  False: the fingerprint retains
only 48 bits of digest, so over the unbounded space of titles two
distinct titles must share a fingerprint (pigeonhole; the collision is
obtained nonconstructively). -/
theorem C5_fingerprint_counterexample :
    ∃ t1 t2 : List Char, t1 ≠ t2 ∧
      create_job_hash c5company t1 c5location = create_job_hash c5company t2 c5location := by
  obtain ⟨n, m, hnm, heq⟩ := Finite.exists_ne_map_eq_of_infinite collisionProbe
  refine ⟨List.replicate n 'a', List.replicate m 'a', ?_, ?_⟩
  · intro hc
    apply hnm
    have hlen := congrArg List.length hc
    simpa using hlen
  · have hv : md5First6 (utf8Bytes (unique_string c5company (List.replicate n 'a') c5location))
          % 281474976710656
        = md5First6 (utf8Bytes (unique_string c5company (List.replicate m 'a') c5location))
          % 281474976710656 := by
      simpa [collisionProbe] using congrArg Fin.val heq
    rw [Nat.mod_eq_of_lt (md5First6_lt _), Nat.mod_eq_of_lt (md5First6_lt _)] at hv
    exact take12_hex_eq_of_take6 _ _ (take6_eq_of_md5First6_eq _ _ hv)

/-- C5 (amended): the fingerprint is a deterministic function of the
concatenated company, title and location, and changing any one of the
three components (the other two held fixed) always changes that
concatenation, the input of the hash; the truncated digest itself is not
injective. -/
theorem C5_fingerprint_amended :
    (∀ c t l c2 t2 l2 : List Char,
        unique_string c t l = unique_string c2 t2 l2 →
        create_job_hash c t l = create_job_hash c2 t2 l2) ∧
    (∀ c t l c2 : List Char, c ≠ c2 → unique_string c t l ≠ unique_string c2 t l) ∧
    (∀ c t l t2 : List Char, t ≠ t2 → unique_string c t l ≠ unique_string c t2 l) ∧
    (∀ c t l l2 : List Char, l ≠ l2 → unique_string c t l ≠ unique_string c t l2) := by
  refine ⟨?_, ?_, ?_, ?_⟩
  · intro c t l c2 t2 l2 h
    simp only [create_job_hash, h]
  · intro c t l c2 h hc
    exact h (List.append_cancel_right (List.append_cancel_right hc))
  · intro c t l t2 h hc
    exact h (List.append_cancel_left (List.append_cancel_right hc))
  · intro c t l l2 h hc
    unfold unique_string at hc
    rw [List.append_assoc, List.append_assoc] at hc
    exact h (List.append_cancel_left (List.append_cancel_left hc))

/-- C5 witness: the amended theorem applied at concrete components,
including two component triples with equal concatenation and two distinct
titles with distinct concatenations. -/
theorem C5_fingerprint_witness :
    unique_string (chars "a") (chars "b") (chars "c")
        = unique_string (chars "ab") [] (chars "c") ∧
    create_job_hash (chars "a") (chars "b") (chars "c")
        = create_job_hash (chars "ab") [] (chars "c") ∧
    unique_string (chars "Acme") (chars "PM") (chars "NY")
        ≠ unique_string (chars "Acme") (chars "PM2") (chars "NY") :=
  ⟨by decide, C5_fingerprint_amended.1 _ _ _ _ _ _ (by decide),
   C5_fingerprint_amended.2.2.1 _ _ _ _ (by decide)⟩
